import Mathlib

/-!
Verification development for the tinyraytracer renderer (src/tinyraytracer.cpp).

Float arithmetic of the C++ source is modelled over the real numbers; machine
integers are modelled with Nat and Int, with explicit reductions modulo 2^64
where a size_t conversion matters.  Fallible routines return Option.
-/

/-- Modelled from the spec: the vector type Vec3f comes from geometry.h, which is
not under src/.  Spec section 3 describes it as a fixed-size float triple with
value semantics. -/
@[ext]
structure Vec3 where
  x : ℝ
  y : ℝ
  z : ℝ

/-- Modelled from the spec: the vector type Vec4f from geometry.h (not under
src/), a fixed-size float quadruple, used for material albedo weights. -/
@[ext]
structure Vec4 where
  x : ℝ
  y : ℝ
  z : ℝ
  w : ℝ

/-- Modelled from the spec: componentwise vector addition (geometry.h). -/
def vadd (a b : Vec3) : Vec3 := ⟨a.x + b.x, a.y + b.y, a.z + b.z⟩

/-- Modelled from the spec: componentwise vector subtraction (geometry.h). -/
def vsub (a b : Vec3) : Vec3 := ⟨a.x - b.x, a.y - b.y, a.z - b.z⟩

/-- Modelled from the spec: vector negation (geometry.h). -/
def vneg (a : Vec3) : Vec3 := ⟨-a.x, -a.y, -a.z⟩

/-- Modelled from the spec: uniform scalar scale, the C++ vec times scalar
(geometry.h). -/
def vsmul (a : Vec3) (k : ℝ) : Vec3 := ⟨a.x * k, a.y * k, a.z * k⟩

/-- Modelled from the spec: the dot product, the C++ operator between two Vec3f
values (geometry.h). -/
def dot (a b : Vec3) : ℝ := a.x * b.x + a.y * b.y + a.z * b.z

/-- Modelled from the spec: the Euclidean norm (geometry.h norm). -/
noncomputable def vnorm (a : Vec3) : ℝ := Real.sqrt (dot a a)

/-- Modelled from the spec: normalize scales the vector by one over its norm
(geometry.h normalize with default length 1).  In this real-number model the
division one over zero is zero, so normalizing the zero vector yields the zero
vector, which is exactly the zero-contribution policy the spec (section 7)
prescribes for degenerate directions. -/
noncomputable def vnormalize (a : Vec3) : Vec3 := vsmul a (1 / vnorm a)

/-- Light, tinyraytracer.cpp lines 14 to 18. -/
structure Light where
  position : Vec3
  intensity : ℝ

/-- MMaterial, tinyraytracer.cpp lines 20 to 27. -/
structure MMaterial where
  refractive_index : ℝ
  albedo : Vec4
  diffuse_color : Vec3
  specular_exponent : ℝ

/-- The MMaterial default constructor: refractive index 1, albedo (1,0,0,0),
default (black) diffuse color, specular exponent 0 (tinyraytracer.cpp line 22;
the zero default of Vec3f is modelled from the spec, section 3). -/
def defaultMMaterial : MMaterial := ⟨1, ⟨1, 0, 0, 0⟩, ⟨0, 0, 0⟩, 0⟩

/-- Sphere, tinyraytracer.cpp lines 29 to 34. -/
structure Sphere where
  center : Vec3
  radius : ℝ
  material : MMaterial

/-- Sphere::ray_intersect, tinyraytracer.cpp lines 36 to 48.  The C++ returns a
bool plus an output parameter t0; here the hit distance is returned as an
Option. -/
noncomputable def Sphere.ray_intersect (s : Sphere) (orig dir : Vec3) : Option ℝ :=
  let L := vsub s.center orig
  let tca := dot L dir
  let d2 := dot L L - tca * tca
  let radius2 := s.radius * s.radius
  if d2 > radius2 then none
  else
    let thc := Real.sqrt (radius2 - d2)
    let t0 := tca - thc
    let t1 := tca + thc
    let t0 := if t0 < 0 then t1 else t0
    if t0 < 0 then none else some t0

/-- The projection of the center-to-origin vector onto the ray direction, the
local variable tca of Sphere::ray_intersect (tinyraytracer.cpp line 38). -/
def sphereTca (s : Sphere) (orig dir : Vec3) : ℝ := dot (vsub s.center orig) dir

/-- The squared distance from the sphere center to the closest approach point,
the local variable d2 of Sphere::ray_intersect (tinyraytracer.cpp line 39). -/
def sphereD2 (s : Sphere) (orig dir : Vec3) : ℝ :=
  dot (vsub s.center orig) (vsub s.center orig) - sphereTca s orig dir * sphereTca s orig dir

/-- The half chord length, the local variable thc of Sphere::ray_intersect
(tinyraytracer.cpp line 42). -/
noncomputable def sphereThc (s : Sphere) (orig dir : Vec3) : ℝ :=
  Real.sqrt (s.radius * s.radius - sphereD2 s orig dir)

/-- reflect, tinyraytracer.cpp lines 51 to 53. -/
def reflect (I N : Vec3) : Vec3 := vsub I (vsmul (vsmul N 2) (dot I N))

/-- refract, tinyraytracer.cpp lines 55 to 66.  The C++ in-place mutations
(cosi = -cosi, the swap of etai and etat, n = -N) are expressed as conditional
bindings on the sign of the clamped incidence cosine. -/
noncomputable def refract (I N : Vec3) (refractive_index : ℝ) : Vec3 :=
  let cosi0 := -(max (-1) (min 1 (dot I N)))
  let cosi := if cosi0 < 0 then -cosi0 else cosi0
  let etai : ℝ := if cosi0 < 0 then refractive_index else 1
  let etat : ℝ := if cosi0 < 0 then 1 else refractive_index
  let n := if cosi0 < 0 then vneg N else N
  let eta := etai / etat
  let k := 1 - eta * eta * (1 - cosi * cosi)
  if k < 0 then ⟨0, 0, 0⟩ else vadd (vsmul I eta) (vsmul n (eta * cosi - Real.sqrt k))

/-- The discriminant k computed by refract (tinyraytracer.cpp line 64), exposed
so that total internal reflection (k below zero) can be stated. -/
noncomputable def refractK (I N : Vec3) (refractive_index : ℝ) : ℝ :=
  let cosi0 := -(max (-1) (min 1 (dot I N)))
  let cosi := if cosi0 < 0 then -cosi0 else cosi0
  let etai : ℝ := if cosi0 < 0 then refractive_index else 1
  let etat : ℝ := if cosi0 < 0 then 1 else refractive_index
  let eta := etai / etat
  1 - eta * eta * (1 - cosi * cosi)

/-- The value of std::numeric_limits of float max, used by scene_intersect as
the initial best distance and by the final distance cutoff comparison
(tinyraytracer.cpp lines 69 and 80). -/
def flt_max : ℝ := 340282346638528859811704183484516925440

/-- The in-out state threaded through scene_intersect: the hit point, the
surface normal and the material output parameters (tinyraytracer.cpp line 68). -/
structure HitState where
  hit : Vec3
  N : Vec3
  material : MMaterial

/-- The output parameters of scene_intersect as cast_ray declares them before
the call: default-constructed vectors and a default material (tinyraytracer.cpp
lines 96 and 97; the zero default of Vec3f is modelled from the spec,
section 3). -/
def initHitState : HitState := ⟨⟨0, 0, 0⟩, ⟨0, 0, 0⟩, defaultMMaterial⟩

/-- The C++ conversion of a double to an int: truncation toward zero, that is,
the floor for nonnegative values and the ceiling for negative ones. -/
noncomputable def cppTrunc (r : ℝ) : ℤ := if 0 ≤ r then ⌊r⌋ else ⌈r⌉

/-- The checkerboard tile color produced inside scene_intersect for a plane hit
point (tinyraytracer.cpp lines 88 and 89).  The C++ int cast truncates toward
zero, and the bitwise and with 1 of a twos-complement int is the nonnegative
remainder modulo 2. -/
noncomputable def checkerboardColor (ptx ptz : ℝ) : Vec3 :=
  let tile : Vec3 :=
    if (cppTrunc (0.5 * ptx + 1000) + cppTrunc (0.5 * ptz)) % 2 = 1 then ⟨1, 1, 1⟩
    else ⟨1, 0.7, 0.3⟩
  vsmul tile 0.3

/-- One step of the sphere loop of scene_intersect (tinyraytracer.cpp lines 70
to 78): the accumulator is the best distance so far with the output state. -/
noncomputable def sphereStep (orig dir : Vec3) (acc : ℝ × HitState) (s : Sphere) :
    ℝ × HitState :=
  match s.ray_intersect orig dir with
  | some dist_i =>
      if dist_i < acc.1 then
        (dist_i,
          ⟨vadd orig (vsmul dir dist_i),
           vnormalize (vsub (vadd orig (vsmul dir dist_i)) s.center),
           s.material⟩)
      else acc
  | none => acc

/-- The sphere loop of scene_intersect (tinyraytracer.cpp lines 70 to 78). -/
noncomputable def sphereScan (orig dir : Vec3) (spheres : List Sphere)
    (acc : ℝ × HitState) : ℝ × HitState :=
  spheres.foldl (sphereStep orig dir) acc

/-- scene_intersect, tinyraytracer.cpp lines 68 to 93.  The in-out output
parameters hit, N and material enter as st0 and leave in the returned state. -/
noncomputable def scene_intersect (orig dir : Vec3) (spheres : List Sphere)
    (st0 : HitState) : Bool × HitState :=
  let sres := sphereScan orig dir spheres (flt_max, st0)
  let spheres_dist := sres.1
  let st1 := sres.2
  let cres :=
    if |dir.y| > 0.001 then
      let d := -(orig.y + 4) / dir.y
      let pt := vadd orig (vsmul dir d)
      if d > 0 ∧ |pt.x| < 10 ∧ pt.z < -10 ∧ pt.z > -30 ∧ d < spheres_dist then
        (d, (⟨pt, ⟨0, 1, 0⟩,
              { st1.material with diffuse_color := checkerboardColor pt.x pt.z }⟩ : HitState))
      else (flt_max, st1)
    else (flt_max, st1)
  (decide (min spheres_dist cres.1 < 1000), cres.2)

/-- One light of the shadow-and-shading loop of cast_ray (tinyraytracer.cpp
lines 111 to 123): the accumulator is the pair of the diffuse and the specular
light intensity, and an occluded light leaves it unchanged (the C++ continue). -/
noncomputable def shadeLight (spheres : List Sphere) (point N dir : Vec3)
    (material : MMaterial) (acc : ℝ × ℝ) (light : Light) : ℝ × ℝ :=
  let light_dir := vnormalize (vsub light.position point)
  let light_distance := vnorm (vsub light.position point)
  let shadow_orig :=
    if dot light_dir N < 0 then vsub point (vsmul N 0.001) else vadd point (vsmul N 0.001)
  let sres := scene_intersect shadow_orig light_dir spheres initHitState
  if sres.1 = true ∧ vnorm (vsub sres.2.hit shadow_orig) < light_distance then acc
  else
    (acc.1 + light.intensity * max 0 (dot light_dir N),
     acc.2 + Real.rpow (max 0 (-(dot (reflect (vneg light_dir) N) dir)))
         material.specular_exponent * light.intensity)

/-- The value of the C++ comparison of the size_t depth against the int
maxDepth in cast_ray (tinyraytracer.cpp line 99): the usual arithmetic
conversions turn maxDepth into a size_t, that is, its value modulo 2 to the 64. -/
def cppMaxDepthAsSizeT (maxDepth : ℤ) : ℕ := (maxDepth % (2 : ℤ) ^ 64).toNat

/-- The fixed background color (tinyraytracer.cpp line 100). -/
def backgroundColor : Vec3 := ⟨0.2, 0.7, 0.8⟩

/-- cast_ray, tinyraytracer.cpp lines 95 to 125. -/
noncomputable def cast_ray (spheres : List Sphere) (lights : List Light) (maxDepth : ℤ)
    (orig dir : Vec3) (depth : ℕ) : Vec3 :=
  if _h : depth > cppMaxDepthAsSizeT maxDepth then backgroundColor
  else
    let res := scene_intersect orig dir spheres initHitState
    if res.1 = false then backgroundColor
    else
      let point := res.2.hit
      let N := res.2.N
      let material := res.2.material
      let reflect_dir := vnormalize (reflect dir N)
      let refract_dir := vnormalize (refract dir N material.refractive_index)
      let reflect_orig :=
        if dot reflect_dir N < 0 then vsub point (vsmul N 0.001)
        else vadd point (vsmul N 0.001)
      let refract_orig :=
        if dot refract_dir N < 0 then vsub point (vsmul N 0.001)
        else vadd point (vsmul N 0.001)
      let reflect_color := cast_ray spheres lights maxDepth reflect_orig reflect_dir (depth + 1)
      let refract_color := cast_ray spheres lights maxDepth refract_orig refract_dir (depth + 1)
      let acc := lights.foldl (shadeLight spheres point N dir material) (0, 0)
      vadd
        (vadd
          (vadd (vsmul (vsmul material.diffuse_color acc.1) material.albedo.x)
            (vsmul (vsmul ⟨1, 1, 1⟩ acc.2) material.albedo.y))
          (vsmul reflect_color material.albedo.z))
        (vsmul refract_color material.albedo.w)
termination_by cppMaxDepthAsSizeT maxDepth + 1 - depth
decreasing_by
  all_goals omega

/-- The number of cast_ray invocations performed by one call of cast_ray,
itself included: an instrumentation of the recursion of tinyraytracer.cpp
lines 95 to 125 that mirrors its branching exactly. -/
noncomputable def castRayCalls (spheres : List Sphere) (lights : List Light) (maxDepth : ℤ)
    (orig dir : Vec3) (depth : ℕ) : ℕ :=
  if _h : depth > cppMaxDepthAsSizeT maxDepth then 1
  else
    let res := scene_intersect orig dir spheres initHitState
    if res.1 = false then 1
    else
      let N := res.2.N
      let material := res.2.material
      let point := res.2.hit
      let reflect_dir := vnormalize (reflect dir N)
      let refract_dir := vnormalize (refract dir N material.refractive_index)
      let reflect_orig :=
        if dot reflect_dir N < 0 then vsub point (vsmul N 0.001)
        else vadd point (vsmul N 0.001)
      let refract_orig :=
        if dot refract_dir N < 0 then vsub point (vsmul N 0.001)
        else vadd point (vsmul N 0.001)
      1 + castRayCalls spheres lights maxDepth reflect_orig reflect_dir (depth + 1)
        + castRayCalls spheres lights maxDepth refract_orig refract_dir (depth + 1)
termination_by cppMaxDepthAsSizeT maxDepth + 1 - depth
decreasing_by
  all_goals omega

/-- The display width (tinyraytracer.cpp line 10). -/
def width : ℕ := 1024

/-- The display height (tinyraytracer.cpp line 11). -/
def height : ℕ := 768

/-- The initializer expression of the fov constant (tinyraytracer.cpp
line 12). -/
noncomputable def fovInit : ℝ := 3.14159265 / 2

/-- The fov constant (tinyraytracer.cpp line 12).  It is declared as a C++ int,
so the double initializer is truncated toward zero, which for this positive
value is the floor. -/
noncomputable def fov : ℤ := ⌊fovInit⌋

/-- The primary ray direction computed by render for the pixel (i, j) at the
given downsample factor (tinyraytracer.cpp lines 133 to 135).  The divisions
width over scale and height over scale are C++ int divisions; everything else
is double arithmetic. -/
noncomputable def renderDir (scale : ℕ) (i j : ℕ) : Vec3 :=
  let x : ℝ := (2 * ((i : ℝ) + 0.5) / ((width / scale : ℕ) : ℝ) - 1)
      * Real.tan ((fov : ℝ) / 2) * ((width / scale : ℕ) : ℝ) / ((height / scale : ℕ) : ℝ)
  let y : ℝ := -(2 * ((j : ℝ) + 0.5) / ((height / scale : ℕ) : ℝ) - 1)
      * Real.tan ((fov : ℝ) / 2)
  vnormalize ⟨x, y, -1⟩

/-- The framebuffer index render writes the pixel (i, j) to:
i + j * width (tinyraytracer.cpp line 136).  Note the stride is the full
display width, not the downsampled row length. -/
def fbIndex (i j : ℕ) : ℕ := i + j * width

/-- The framebuffer element count (tinyraytracer.cpp line 128). -/
def framebufferSize (scale : ℕ) : ℕ := width * height / scale

/-- The color render stores for the pixel (i, j): a primary ray cast from the
origin with depth 0 (tinyraytracer.cpp line 136). -/
noncomputable def renderPixel (spheres : List Sphere) (lights : List Light)
    (scale : ℕ) (maxDepth : ℤ) (i j : ℕ) : Vec3 :=
  cast_ray spheres lights maxDepth ⟨0, 0, 0⟩ (renderDir scale i j) 0

/-- A rectangle draw command emitted to the presentation layer
(tinyraytracer.cpp line 174).  The color is the tone-mapped run color. -/
structure Rect where
  x : ℕ
  y : ℕ
  w : ℕ
  h : ℕ
  color : Vec3

/-- The color correction applied to a run color before it is drawn
(tinyraytracer.cpp lines 163 to 165): if the largest channel exceeds 1, the
color is scaled by its reciprocal. -/
noncomputable def toneMapColor (c : Vec3) : Vec3 :=
  let m := max c.x (max c.y c.z)
  if m > 1 then vsmul c (1 / m) else c

/-- One column step of the contiguous rectangle drawing loop of render
(tinyraytracer.cpp lines 155 to 181).  The accumulator carries startIdx, the
running color and the rectangles emitted so far; oldStartIdx is the fixed row
start index. -/
noncomputable def compressStep (fbWidth scale : ℕ) (fb : ℕ → Vec3) (oldStartIdx : ℕ)
    (acc : ℕ × Vec3 × List Rect) (col : ℕ) : ℕ × Vec3 × List Rect :=
  let startIdx := acc.1
  let currentColor := acc.2.1
  let rects := acc.2.2
  let idx := oldStartIdx + col
  let endRow := col = fbWidth / scale - 1
  let colorChange := (fb idx).x ≠ currentColor.x ∨ (fb idx).y ≠ currentColor.y
      ∨ (fb idx).z ≠ currentColor.z
  if endRow ∨ colorChange then
    let c := toneMapColor currentColor
    let x := (startIdx % fbWidth) * scale
    let y := (startIdx / fbWidth) * scale
    let rectWidth := (col - startIdx % (fbWidth / scale)) * scale
    let rects2 := rects ++ [⟨x, y, rectWidth, scale, c⟩]
    if colorChange then (idx, fb idx, rects2) else (startIdx, c, rects2)
  else acc

/-- The contiguous rectangle drawing pass of render for one row
(tinyraytracer.cpp lines 149 to 182): the column loop runs from 0 up to and
including fbWidth over scale. -/
noncomputable def compressRow (fbWidth scale : ℕ) (fb : ℕ → Vec3) (row : ℕ) : List Rect :=
  let startIdx := row * fbWidth
  ((List.range (fbWidth / scale + 1)).foldl (compressStep fbWidth scale fb startIdx)
    (startIdx, fb startIdx, [])).2.2

theorem dot_self_nonneg (v : Vec3) : 0 ≤ dot v v := by
  simp only [dot]
  nlinarith [mul_self_nonneg v.x, mul_self_nonneg v.y, mul_self_nonneg v.z]

theorem sq_vnorm (v : Vec3) : vnorm v ^ 2 = dot v v := Real.sq_sqrt (dot_self_nonneg v)

theorem vnorm_nonneg (v : Vec3) : 0 ≤ vnorm v := Real.sqrt_nonneg _

theorem dot_vsmul_right (a b : Vec3) (k : ℝ) : dot a (vsmul b k) = k * dot a b := by
  simp only [dot, vsmul]; ring

theorem dot_vneg_right (a b : Vec3) : dot a (vneg b) = -dot a b := by
  simp only [dot, vneg]; ring

theorem vsub_swap (a b : Vec3) : vsub a b = vneg (vsub b a) := by
  simp only [vsub, vneg]; ext <;> ring

theorem vnorm_vneg (v : Vec3) : vnorm (vneg v) = vnorm v := by
  simp only [vnorm, dot, vneg]; ring_nf

theorem sqrt_eval {a b : ℝ} (hb : 0 ≤ b) (h : b * b = a) : Real.sqrt a = b := by
  rw [← h, Real.sqrt_mul_self hb]

theorem ray_intersect_eval (s : Sphere) (orig dir : Vec3) :
    (sphereD2 s orig dir > s.radius * s.radius → s.ray_intersect orig dir = none)
    ∧ (sphereD2 s orig dir ≤ s.radius * s.radius →
        0 ≤ sphereTca s orig dir - sphereThc s orig dir →
        s.ray_intersect orig dir = some (sphereTca s orig dir - sphereThc s orig dir))
    ∧ (sphereD2 s orig dir ≤ s.radius * s.radius →
        sphereTca s orig dir - sphereThc s orig dir < 0 →
        0 ≤ sphereTca s orig dir + sphereThc s orig dir →
        s.ray_intersect orig dir = some (sphereTca s orig dir + sphereThc s orig dir))
    ∧ (sphereD2 s orig dir ≤ s.radius * s.radius →
        sphereTca s orig dir + sphereThc s orig dir < 0 →
        s.ray_intersect orig dir = none) := by
  simp only [Sphere.ray_intersect, sphereTca, sphereD2, sphereThc]
  have hs := Real.sqrt_nonneg (s.radius * s.radius -
      (dot (vsub s.center orig) (vsub s.center orig) -
        dot (vsub s.center orig) dir * dot (vsub s.center orig) dir))
  refine ⟨fun h => ?_, fun h1 h2 => ?_, fun h1 h2 h3 => ?_, fun h1 h2 => ?_⟩ <;>
    split_ifs <;> first | rfl | (exfalso; linarith)

/-- C2: for a ray whose origin lies outside the sphere and whose unit direction
points directly at the sphere center, Sphere::ray_intersect reports a hit at
distance norm(center - origin) - radius; for the direction pointing directly
away from the sphere it reports no hit; and in general the reported distance is
the near candidate tca - thc, falling back to tca + thc when the near candidate
is negative, with no hit when both candidates are negative or d2 exceeds the
squared radius. -/
theorem C2_ray_intersect_correct (s : Sphere) (orig : Vec3)
    (hr : 0 ≤ s.radius) (hout : s.radius < vnorm (vsub s.center orig)) :
    s.ray_intersect orig (vnormalize (vsub s.center orig))
        = some (vnorm (vsub s.center orig) - s.radius)
    ∧ s.ray_intersect orig (vnormalize (vsub orig s.center)) = none
    ∧ ∀ dir : Vec3,
        (sphereD2 s orig dir > s.radius * s.radius → s.ray_intersect orig dir = none)
        ∧ (sphereD2 s orig dir ≤ s.radius * s.radius →
            0 ≤ sphereTca s orig dir - sphereThc s orig dir →
            s.ray_intersect orig dir = some (sphereTca s orig dir - sphereThc s orig dir))
        ∧ (sphereD2 s orig dir ≤ s.radius * s.radius →
            sphereTca s orig dir - sphereThc s orig dir < 0 →
            0 ≤ sphereTca s orig dir + sphereThc s orig dir →
            s.ray_intersect orig dir = some (sphereTca s orig dir + sphereThc s orig dir))
        ∧ (sphereD2 s orig dir ≤ s.radius * s.radius →
            sphereTca s orig dir + sphereThc s orig dir < 0 →
            s.ray_intersect orig dir = none) := by
  have hn : 0 < vnorm (vsub s.center orig) := lt_of_le_of_lt hr hout
  have hdot : dot (vsub s.center orig) (vsub s.center orig)
      = vnorm (vsub s.center orig) ^ 2 := (sq_vnorm _).symm
  have htca : sphereTca s orig (vnormalize (vsub s.center orig))
      = vnorm (vsub s.center orig) := by
    simp only [sphereTca, vnormalize, dot_vsmul_right, hdot]
    field_simp
    ring
  have hd2 : sphereD2 s orig (vnormalize (vsub s.center orig)) = 0 := by
    simp only [sphereD2, htca, hdot]; ring
  have hthc : sphereThc s orig (vnormalize (vsub s.center orig)) = s.radius := by
    simp only [sphereThc, hd2, sub_zero]
    exact sqrt_eval hr rfl
  have hswap : vsub orig s.center = vneg (vsub s.center orig) := vsub_swap _ _
  have htcb : sphereTca s orig (vnormalize (vsub orig s.center))
      = -vnorm (vsub s.center orig) := by
    simp only [sphereTca, vnormalize, hswap, vnorm_vneg, dot_vsmul_right, dot_vneg_right, hdot]
    field_simp
    ring
  have hd2b : sphereD2 s orig (vnormalize (vsub orig s.center)) = 0 := by
    simp only [sphereD2, htcb, hdot]; ring
  have hthcb : sphereThc s orig (vnormalize (vsub orig s.center)) = s.radius := by
    simp only [sphereThc, hd2b, sub_zero]
    exact sqrt_eval hr rfl
  refine ⟨?_, ?_, fun dir => ray_intersect_eval s orig dir⟩
  · have h := (ray_intersect_eval s orig (vnormalize (vsub s.center orig))).2.1
    rw [hd2, htca, hthc] at h
    exact h (mul_self_nonneg _) (by linarith)
  · have h := (ray_intersect_eval s orig (vnormalize (vsub orig s.center))).2.2.2
    rw [hd2b, htcb, hthcb] at h
    exact h (mul_self_nonneg _) (by linarith)

/-- Witness for C2 at a concrete sphere of radius 2 centered five units behind
the origin on the z axis: the toward-center ray hits at distance 3 and the
away-pointing ray misses. -/
theorem C2_witness :
    Sphere.ray_intersect ⟨⟨0, 0, -5⟩, 2, defaultMMaterial⟩ ⟨0, 0, 0⟩
        (vnormalize (vsub (⟨0, 0, -5⟩ : Vec3) ⟨0, 0, 0⟩)) = some 3
    ∧ Sphere.ray_intersect ⟨⟨0, 0, -5⟩, 2, defaultMMaterial⟩ ⟨0, 0, 0⟩
        (vnormalize (vsub (⟨0, 0, 0⟩ : Vec3) ⟨0, 0, -5⟩)) = none := by
  have h5 : vnorm (vsub (⟨0, 0, -5⟩ : Vec3) ⟨0, 0, 0⟩) = 5 := by
    simp only [vnorm, vsub, dot]
    norm_num
    exact sqrt_eval (by norm_num) (by norm_num)
  obtain ⟨h1, h2, -⟩ := C2_ray_intersect_correct ⟨⟨0, 0, -5⟩, 2, defaultMMaterial⟩ ⟨0, 0, 0⟩
      (by norm_num)
      (by show (2 : ℝ) < vnorm (vsub (⟨0, 0, -5⟩ : Vec3) ⟨0, 0, 0⟩); rw [h5]; norm_num)
  rw [show (Sphere.mk ⟨0, 0, -5⟩ 2 defaultMMaterial).center = ⟨0, 0, -5⟩ from rfl] at h1 h2
  rw [show (Sphere.mk ⟨0, 0, -5⟩ 2 defaultMMaterial).radius = 2 from rfl] at h1
  rw [h5] at h1
  norm_num at h1
  exact ⟨h1, h2⟩

/-- C3: whenever refract computes a negative discriminant k (total internal
reflection) it returns the zero vector as the no-transmission sentinel; the
shading pipeline then normalizes that zero vector to the zero vector again (in
this real-number model nothing degenerates to NaN, matching the
zero-contribution policy of spec section 7), and the recursive cast_ray issued
on it is the well-defined zero-direction call, so the path neither crashes nor
produces an undefined color. -/
theorem C3_refract_total_internal_reflection (I N : Vec3) (refractive_index : ℝ)
    (hk : refractK I N refractive_index < 0) :
    refract I N refractive_index = ⟨0, 0, 0⟩
    ∧ vnormalize (refract I N refractive_index) = ⟨0, 0, 0⟩
    ∧ ∀ (spheres : List Sphere) (lights : List Light) (maxDepth : ℤ)
        (orig : Vec3) (depth : ℕ),
        cast_ray spheres lights maxDepth orig
            (vnormalize (refract I N refractive_index)) depth
          = cast_ray spheres lights maxDepth orig ⟨0, 0, 0⟩ depth := by
  have h0 : refract I N refractive_index = ⟨0, 0, 0⟩ := by
    simp only [refractK] at hk
    simp only [refract]
    rw [if_pos hk]
  have h1 : vnormalize (⟨0, 0, 0⟩ : Vec3) = ⟨0, 0, 0⟩ := by
    simp only [vnormalize, vnorm, dot, vsmul]
    norm_num
  exact ⟨h0, by rw [h0, h1],
    fun spheres lights maxDepth orig depth => by rw [h0, h1]⟩

/-- Witness for C3: a ray leaving a medium of refractive index 2 with incidence
cosine 3/5 gives k = -39/25 below zero, a zero-vector refraction, and a
zero-vector normalized refraction direction. -/
theorem C3_witness :
    refractK ⟨0.8, 0, 0.6⟩ ⟨0, 0, 1⟩ 2 < 0
    ∧ refract ⟨0.8, 0, 0.6⟩ ⟨0, 0, 1⟩ 2 = ⟨0, 0, 0⟩
    ∧ vnormalize (refract ⟨0.8, 0, 0.6⟩ ⟨0, 0, 1⟩ 2) = ⟨0, 0, 0⟩ := by
  have hd : dot ⟨0.8, 0, 0.6⟩ ⟨0, 0, 1⟩ = 0.6 := by norm_num [dot]
  have hk : refractK ⟨0.8, 0, 0.6⟩ ⟨0, 0, 1⟩ 2 < 0 := by
    simp only [refractK, hd]
    rw [min_eq_right (by norm_num : (0.6 : ℝ) ≤ 1),
      max_eq_right (by norm_num : (-1 : ℝ) ≤ 0.6)]
    rw [if_pos (by norm_num : -(0.6 : ℝ) < 0), if_pos (by norm_num : -(0.6 : ℝ) < 0),
      if_pos (by norm_num : -(0.6 : ℝ) < 0)]
    norm_num
  obtain ⟨h0, h1, -⟩ := C3_refract_total_internal_reflection ⟨0.8, 0, 0.6⟩ ⟨0, 0, 1⟩ 2 hk
  exact ⟨hk, h0, h1⟩

theorem cppTrunc_eq_of_nonneg {r : ℝ} {n : ℤ} (h0 : 0 ≤ r) (h1 : (n : ℝ) ≤ r)
    (h2 : r < n + 1) : cppTrunc r = n := by
  rw [cppTrunc, if_pos h0]
  exact Int.floor_eq_iff.mpr ⟨h1, h2⟩

theorem cppTrunc_eq_of_neg {r : ℝ} {n : ℤ} (h0 : ¬ 0 ≤ r) (h1 : (n : ℝ) - 1 < r)
    (h2 : r ≤ n) : cppTrunc r = n := by
  rw [cppTrunc, if_neg h0]
  exact Int.ceil_eq_iff.mpr ⟨h1, h2⟩

/-- Counterexample for C5: at the plane hit point (x = 0, z = -20) the claimed
floor-sum parity is even (1000 + (-10) = 990), yet the code produces the dimmed
darker tile (1, 0.7, 0.3) scaled by 0.3, and not the dimmed light white tile,
so even parity does not select the light tile color. -/
theorem C5_counterexample :
    (⌊(0.5 * (0 : ℝ) + 1000)⌋ + ⌊(0.5 * (-20 : ℝ))⌋) % 2 = 0
    ∧ checkerboardColor 0 (-20) = ⟨0.3, 0.21, 0.09⟩
    ∧ checkerboardColor 0 (-20) ≠ vsmul ⟨1, 1, 1⟩ 0.3 := by
  have f1 : ⌊(0.5 * (0 : ℝ) + 1000)⌋ = 1000 := Int.floor_eq_iff.mpr ⟨by norm_num, by norm_num⟩
  have f2 : ⌊(0.5 * (-20 : ℝ))⌋ = -10 := Int.floor_eq_iff.mpr ⟨by norm_num, by norm_num⟩
  have e1 : cppTrunc (0.5 * (0 : ℝ) + 1000) = 1000 :=
    cppTrunc_eq_of_nonneg (by norm_num) (by norm_num) (by norm_num)
  have e2 : cppTrunc (0.5 * (-20 : ℝ)) = -10 :=
    cppTrunc_eq_of_neg (by norm_num) (by norm_num) (by norm_num)
  have hc : checkerboardColor 0 (-20) = vsmul ⟨1, 0.7, 0.3⟩ 0.3 := by
    simp only [checkerboardColor, e1, e2]
    rw [if_neg (by decide : ¬((1000 + -10 : ℤ) % 2 = 1))]
  refine ⟨by rw [f1, f2]; decide, by rw [hc]; simp only [vsmul]; norm_num, ?_⟩
  rw [hc]
  simp only [vsmul, ne_eq, Vec3.mk.injEq]
  norm_num

/-- C5 amended: the tile is chosen by the parity of the sum of the toward-zero
truncations of 0.5 x + 1000 and 0.5 z (for the negative 0.5 z the C++ int cast
is the ceiling, not the floor); odd parity yields the light white tile and even
parity the darker (1, 0.7, 0.3) tile, both dimmed by the fixed factor 0.3, and
at the plane hit points (0, -20) and (2, -20) the tile colors alternate. -/
theorem C5_checkerboard_parity (x z : ℝ) :
    ((cppTrunc (0.5 * x + 1000) + cppTrunc (0.5 * z)) % 2 = 1 →
      checkerboardColor x z = vsmul ⟨1, 1, 1⟩ 0.3)
    ∧ ((cppTrunc (0.5 * x + 1000) + cppTrunc (0.5 * z)) % 2 = 0 →
      checkerboardColor x z = vsmul ⟨1, 0.7, 0.3⟩ 0.3)
    ∧ checkerboardColor 0 (-20) ≠ checkerboardColor 2 (-20) := by
  have e1 : cppTrunc (0.5 * (0 : ℝ) + 1000) = 1000 :=
    cppTrunc_eq_of_nonneg (by norm_num) (by norm_num) (by norm_num)
  have e2 : cppTrunc (0.5 * (-20 : ℝ)) = -10 :=
    cppTrunc_eq_of_neg (by norm_num) (by norm_num) (by norm_num)
  have e3 : cppTrunc (0.5 * (2 : ℝ) + 1000) = 1001 :=
    cppTrunc_eq_of_nonneg (by norm_num) (by norm_num) (by norm_num)
  refine ⟨fun h => ?_, fun h => ?_, ?_⟩
  · simp only [checkerboardColor]
    rw [if_pos h]
  · simp only [checkerboardColor]
    rw [if_neg (by omega)]
  · have hA : checkerboardColor 0 (-20) = vsmul ⟨1, 0.7, 0.3⟩ 0.3 := by
      simp only [checkerboardColor, e1, e2]
      rw [if_neg (by decide : ¬((1000 + -10 : ℤ) % 2 = 1))]
    have hB : checkerboardColor 2 (-20) = vsmul ⟨1, 1, 1⟩ 0.3 := by
      simp only [checkerboardColor, e3, e2]
      rw [if_pos (by decide : (1001 + -10 : ℤ) % 2 = 1)]
    rw [hA, hB]
    simp only [vsmul, ne_eq, Vec3.mk.injEq]
    norm_num

/-- Witness for C5 at the concrete plane hit point (x = 2, z = -20): the
truncation sum 1001 - 10 = 991 is odd and the tile is the dimmed white one. -/
theorem C5_witness : checkerboardColor 2 (-20) = vsmul ⟨1, 1, 1⟩ 0.3 := by
  have e2 : cppTrunc (0.5 * (-20 : ℝ)) = -10 :=
    cppTrunc_eq_of_neg (by norm_num) (by norm_num) (by norm_num)
  have e3 : cppTrunc (0.5 * (2 : ℝ) + 1000) = 1001 :=
    cppTrunc_eq_of_nonneg (by norm_num) (by norm_num) (by norm_num)
  exact (C5_checkerboard_parity 2 (-20)).1 (by rw [e2, e3]; decide)

theorem cast_ray_depth_exceeded (spheres : List Sphere) (lights : List Light)
    (maxDepth : ℤ) (orig dir : Vec3) (depth : ℕ)
    (h : depth > cppMaxDepthAsSizeT maxDepth) :
    cast_ray spheres lights maxDepth orig dir depth = backgroundColor := by
  rw [cast_ray]
  rw [dif_pos h]

theorem castRayCalls_depth_exceeded (spheres : List Sphere) (lights : List Light)
    (maxDepth : ℤ) (orig dir : Vec3) (depth : ℕ)
    (h : depth > cppMaxDepthAsSizeT maxDepth) :
    castRayCalls spheres lights maxDepth orig dir depth = 1 := by
  rw [castRayCalls]
  rw [dif_pos h]

theorem cast_ray_miss (spheres : List Sphere) (lights : List Light)
    (maxDepth : ℤ) (orig dir : Vec3) (depth : ℕ)
    (h : (scene_intersect orig dir spheres initHitState).1 = false) :
    cast_ray spheres lights maxDepth orig dir depth = backgroundColor := by
  by_cases hd : depth > cppMaxDepthAsSizeT maxDepth
  · rw [cast_ray, dif_pos hd]
  · rw [cast_ray, dif_neg hd]
    simp only [h, if_true]

/-- C1: for every origin, direction, sphere list and light list, cast_ray
returns exactly the background color (0.2, 0.7, 0.8) whenever depth exceeds
maxDepth (for any nonnegative representable maxDepth, compared as the C++
does after the size_t conversion) or the scene-intersection query reports no
hit, and in the depth-exceeded case it returns immediately with zero further
recursive calls: its total number of cast_ray invocations is one. -/
theorem C1_cast_ray_terminal (spheres : List Sphere) (lights : List Light)
    (orig dir : Vec3) (depth : ℕ) (maxDepth : ℤ)
    (h0 : 0 ≤ maxDepth) (h1 : maxDepth < 2 ^ 64) :
    (maxDepth < (depth : ℤ) →
      cast_ray spheres lights maxDepth orig dir depth = backgroundColor
      ∧ castRayCalls spheres lights maxDepth orig dir depth = 1)
    ∧ ((scene_intersect orig dir spheres initHitState).1 = false →
      cast_ray spheres lights maxDepth orig dir depth = backgroundColor)
    ∧ backgroundColor = ⟨0.2, 0.7, 0.8⟩ := by
  have hM : cppMaxDepthAsSizeT maxDepth = maxDepth.toNat := by
    rw [cppMaxDepthAsSizeT, Int.emod_eq_of_lt h0 h1]
  refine ⟨fun hd => ?_, fun hm => cast_ray_miss spheres lights maxDepth orig dir depth hm, rfl⟩
  have hgt : depth > cppMaxDepthAsSizeT maxDepth := by rw [hM]; omega
  exact ⟨cast_ray_depth_exceeded spheres lights maxDepth orig dir depth hgt,
    castRayCalls_depth_exceeded spheres lights maxDepth orig dir depth hgt⟩

/-- Witness for C1: with maxDepth 4 a call at depth 5 returns the background
color with a call count of one, and a ray along the negative z axis through an
empty scene misses and also returns the background color. -/
theorem C1_witness :
    cast_ray [] [] 4 ⟨0, 0, 0⟩ ⟨0, 0, -1⟩ 5 = backgroundColor
    ∧ castRayCalls [] [] 4 ⟨0, 0, 0⟩ ⟨0, 0, -1⟩ 5 = 1
    ∧ cast_ray [] [] 4 ⟨0, 0, 0⟩ ⟨0, 0, -1⟩ 0 = backgroundColor := by
  have hmiss : (scene_intersect ⟨0, 0, 0⟩ ⟨0, 0, -1⟩ [] initHitState).1 = false := by
    simp only [scene_intersect, sphereScan, List.foldl_nil]
    rw [if_neg (by norm_num : ¬(|(Vec3.mk 0 0 (-1)).y| > 0.001))]
    exact decide_eq_false (by rw [min_self]; norm_num [flt_max])
  obtain ⟨ha, hb⟩ :=
    (C1_cast_ray_terminal [] [] ⟨0, 0, 0⟩ ⟨0, 0, -1⟩ 5 4 (by norm_num) (by norm_num)).1
      (by norm_num)
  exact ⟨ha, hb,
    (C1_cast_ray_terminal [] [] ⟨0, 0, 0⟩ ⟨0, 0, -1⟩ 0 4 (by norm_num) (by norm_num)).2.1 hmiss⟩

/-- C9: render applies no rejection or clamping to scale or maxDepth.  At the
failing input maxDepth = -1 the C++ comparison depth > maxDepth in cast_ray
converts maxDepth to a size_t, so the guard compares depth against 2^64 - 1
and never fires for any representable depth: instead of the input being
rejected or clamped at the render boundary, the depth bound is lost. -/
theorem C9_depth_guard_lost :
    cppMaxDepthAsSizeT (-1) = 2 ^ 64 - 1
    ∧ ∀ depth : ℕ, depth < 2 ^ 64 → ¬(depth > cppMaxDepthAsSizeT (-1)) := by
  have h : cppMaxDepthAsSizeT (-1) = 2 ^ 64 - 1 := by
    rw [cppMaxDepthAsSizeT]
    norm_num
    rfl
  exact ⟨h, fun depth hd => by rw [h]; omega⟩

/-- Witness for C9: at depth one million the guard that should have stopped
the recursion for maxDepth = -1 is still false. -/
theorem C9_witness : ¬((1000000 : ℕ) > cppMaxDepthAsSizeT (-1)) :=
  C9_depth_guard_lost.2 1000000 (by norm_num)

theorem fov_eq_one : fov = 1 := by
  rw [fov, fovInit]
  exact Int.floor_eq_iff.mpr ⟨by norm_num, by norm_num⟩

/-- Counterexample for C7: the screen-coordinate scale factor render actually
uses is tan(fov / 2) where the int-declared constant fov holds 1 (the
initializer 3.14159265 / 2 is truncated by the int declaration), and
tan(1 / 2) is strictly below tan(pi / 4), so the factor is not tan(pi / 4). -/
theorem C7_counterexample : Real.tan ((fov : ℝ) / 2) ≠ Real.tan (Real.pi / 4) := by
  have hpi := Real.pi_gt_three
  have hlt : Real.tan ((1 : ℝ) / 2) < Real.tan (Real.pi / 4) := by
    apply Real.strictMonoOn_tan
    · exact Set.mem_Ioo.mpr ⟨by linarith, by linarith⟩
    · exact Set.mem_Ioo.mpr ⟨by linarith, by linarith⟩
    · linarith
  rw [fov_eq_one]
  push_cast
  exact ne_of_lt hlt

/-- C7 amended: the fov constant is declared int, so it holds 1 and the screen
scale factor is tan(1 / 2) (an effective field of view of one radian rather
than pi / 2); the x coordinate is aspect-corrected by the real ratio of the
int-divided downsampled dimensions, the direction is (x, y, -1) normalized,
and render casts the ray from the origin (0, 0, 0) at depth 0. -/
theorem C7_render_ray (scale : ℕ) (i j : ℕ) (spheres : List Sphere)
    (lights : List Light) (maxDepth : ℤ) :
    fov = 1
    ∧ renderDir scale i j = vnormalize
        ⟨(2 * ((i : ℝ) + 0.5) / ((width / scale : ℕ) : ℝ) - 1) * Real.tan (1 / 2)
            * ((width / scale : ℕ) : ℝ) / ((height / scale : ℕ) : ℝ),
          -(2 * ((j : ℝ) + 0.5) / ((height / scale : ℕ) : ℝ) - 1) * Real.tan (1 / 2),
          -1⟩
    ∧ renderPixel spheres lights scale maxDepth i j
        = cast_ray spheres lights maxDepth ⟨0, 0, 0⟩ (renderDir scale i j) 0 := by
  refine ⟨fov_eq_one, ?_, rfl⟩
  simp only [renderDir, fov_eq_one]
  push_cast
  rfl

/-- Counterexample for C8: render stores the pixel (i, j) at the index
i + j * width, with the full display width as the stride; at scale 8 the pixel
(0, 1) lands at index 1024, not at the downsampled row-major index
0 + 1 * (width / 8) = 128. -/
theorem C8_counterexample : fbIndex 0 1 = 1024 ∧ fbIndex 0 1 ≠ 0 + 1 * (width / 8) := by
  constructor <;> norm_num [fbIndex, width]

/-- C8 amended: the framebuffer holds width * height / scale entries created
per frame, and render stores the pixel (i, j) at the index i + j * width, with
the full display width as the stride; for every scale dividing the height all
these write indices stay strictly inside the buffer and distinct pixels map to
distinct indices.  The buffer is not fully overwritten: only the first
width / scale slots of each stride-width row block are written, and the
rectangle pass reads rows with the same full-width stride. -/
theorem C8_fb_layout (scale i j k : ℕ) (hk : height = scale * k)
    (hi : i < width / scale) (hj : j < height / scale) :
    fbIndex i j < framebufferSize scale
    ∧ ∀ i2 j2, i2 < width / scale → j2 < height / scale →
        fbIndex i j = fbIndex i2 j2 → i = i2 ∧ j = j2 := by
  have hs : 0 < scale := by
    rcases Nat.eq_zero_or_pos scale with h | h
    · rw [h, Nat.zero_mul] at hk
      exact absurd hk (by norm_num [height])
    · exact h
  have hdiv : height / scale = k := by rw [hk, Nat.mul_div_cancel_left _ hs]
  have hfs : framebufferSize scale = width * k := by
    rw [framebufferSize, hk, show width * (scale * k) = width * k * scale by ring,
      Nat.mul_div_cancel _ hs]
  have hwle : width / scale ≤ width := Nat.div_le_self _ _
  rw [hdiv] at hj
  have h1 : i < width := lt_of_lt_of_le hi hwle
  constructor
  · rw [hfs]
    simp only [fbIndex, width] at h1 ⊢
    omega
  · intro i2 j2 hi2 hj2 heq
    rw [hdiv] at hj2
    have h2 : i2 < width := lt_of_lt_of_le hi2 hwle
    simp only [fbIndex, width] at h1 h2 heq
    omega

/-- Witness for C8 amended at scale 8 and pixel (5, 3): the write index is in
bounds of the buffer. -/
theorem C8_witness : fbIndex 5 3 < framebufferSize 8 :=
  (C8_fb_layout 8 5 3 96 (by norm_num [height]) (by norm_num [width])
    (by norm_num [height])).1

/-- C4: in the lighting loop of cast_ray, a light contributes nothing, to
neither the diffuse nor the specular accumulator, exactly when the shadow ray
cast from the epsilon-biased origin toward the light hits the scene at a
distance (the norm from the biased origin to the hit point, which along the
unit shadow direction is the hit distance) strictly below the distance to the
light; otherwise, in particular when the hit distance merely equals the light
distance, the light is not treated as occluded and both the diffuse and the
specular terms are accumulated. -/
theorem C4_shadow_occlusion (spheres : List Sphere) (point N dir : Vec3)
    (material : MMaterial) (acc : ℝ × ℝ) (light : Light)
    (light_dir shadow_orig : Vec3) (light_distance : ℝ) (sres : Bool × HitState)
    (hld : light_dir = vnormalize (vsub light.position point))
    (hdist : light_distance = vnorm (vsub light.position point))
    (hso : shadow_orig = if dot light_dir N < 0 then vsub point (vsmul N 0.001)
        else vadd point (vsmul N 0.001))
    (hres : sres = scene_intersect shadow_orig light_dir spheres initHitState) :
    (sres.1 = true ∧ vnorm (vsub sres.2.hit shadow_orig) < light_distance →
      shadeLight spheres point N dir material acc light = acc)
    ∧ (¬(sres.1 = true ∧ vnorm (vsub sres.2.hit shadow_orig) < light_distance) →
      shadeLight spheres point N dir material acc light
        = (acc.1 + light.intensity * max 0 (dot light_dir N),
           acc.2 + Real.rpow (max 0 (-(dot (reflect (vneg light_dir) N) dir)))
               material.specular_exponent * light.intensity)) := by
  subst hld hdist hso hres
  constructor
  · intro h
    simp only [shadeLight]
    rw [if_pos h]
  · intro h
    simp only [shadeLight]
    rw [if_neg h]

/-- Witness for C4: a unit-radius blocker sphere centered at (0, 0, 5) sits
between the shaded point (0, 0, 0) with normal (0, 0, 1) and the light at
(0, 0, 10); the shadow ray from the biased origin (0, 0, 0.001) hits it at
distance 3.999, strictly below the light distance 10, so this light adds
nothing to either intensity accumulator. -/
theorem C4_witness :
    shadeLight [⟨⟨0, 0, 5⟩, 1, defaultMMaterial⟩] ⟨0, 0, 0⟩ ⟨0, 0, 1⟩ ⟨0, 0, 1⟩
      defaultMMaterial (0, 0) ⟨⟨0, 0, 10⟩, 1.5⟩ = (0, 0) := by
  have hnl : vnorm (vsub (⟨0, 0, 10⟩ : Vec3) ⟨0, 0, 0⟩) = 10 := by
    rw [show vsub (⟨0, 0, 10⟩ : Vec3) ⟨0, 0, 0⟩ = ⟨0, 0, 10⟩ from by norm_num [vsub]]
    simp only [vnorm,
      show dot (⟨0, 0, 10⟩ : Vec3) ⟨0, 0, 10⟩ = 100 from by norm_num [dot]]
    exact sqrt_eval (by norm_num) (by norm_num)
  have hldv : vnormalize (vsub (⟨0, 0, 10⟩ : Vec3) ⟨0, 0, 0⟩) = ⟨0, 0, 1⟩ := by
    simp only [vnormalize, hnl]
    norm_num [vsub, vsmul]
  have hsov : (if dot (⟨0, 0, 1⟩ : Vec3) ⟨0, 0, 1⟩ < 0
      then vsub ⟨0, 0, 0⟩ (vsmul ⟨0, 0, 1⟩ 0.001)
      else vadd ⟨0, 0, 0⟩ (vsmul ⟨0, 0, 1⟩ 0.001)) = (⟨0, 0, 0.001⟩ : Vec3) := by
    rw [if_neg (by norm_num [dot])]
    norm_num [vadd, vsmul]
  have htca : sphereTca ⟨⟨0, 0, 5⟩, 1, defaultMMaterial⟩ ⟨0, 0, 0.001⟩ ⟨0, 0, 1⟩ = 4.999 := by
    show dot (vsub ⟨0, 0, 5⟩ ⟨0, 0, 0.001⟩) ⟨0, 0, 1⟩ = 4.999
    norm_num [vsub, dot]
  have hd2 : sphereD2 ⟨⟨0, 0, 5⟩, 1, defaultMMaterial⟩ ⟨0, 0, 0.001⟩ ⟨0, 0, 1⟩ = 0 := by
    show dot (vsub ⟨0, 0, 5⟩ ⟨0, 0, 0.001⟩) (vsub ⟨0, 0, 5⟩ ⟨0, 0, 0.001⟩)
        - sphereTca ⟨⟨0, 0, 5⟩, 1, defaultMMaterial⟩ ⟨0, 0, 0.001⟩ ⟨0, 0, 1⟩
          * sphereTca ⟨⟨0, 0, 5⟩, 1, defaultMMaterial⟩ ⟨0, 0, 0.001⟩ ⟨0, 0, 1⟩ = 0
    rw [htca]
    norm_num [vsub, dot]
  have hthc : sphereThc ⟨⟨0, 0, 5⟩, 1, defaultMMaterial⟩ ⟨0, 0, 0.001⟩ ⟨0, 0, 1⟩ = 1 := by
    show Real.sqrt ((1 : ℝ) * 1
        - sphereD2 ⟨⟨0, 0, 5⟩, 1, defaultMMaterial⟩ ⟨0, 0, 0.001⟩ ⟨0, 0, 1⟩) = 1
    rw [hd2]
    norm_num
  have hray : Sphere.ray_intersect ⟨⟨0, 0, 5⟩, 1, defaultMMaterial⟩ ⟨0, 0, 0.001⟩ ⟨0, 0, 1⟩
      = some 3.999 := by
    have h := (ray_intersect_eval ⟨⟨0, 0, 5⟩, 1, defaultMMaterial⟩ ⟨0, 0, 0.001⟩ ⟨0, 0, 1⟩).2.1
    rw [show (Sphere.mk ⟨0, 0, 5⟩ 1 defaultMMaterial).radius = 1 from rfl] at h
    rw [hd2, htca, hthc] at h
    have h2 := h (by norm_num) (by norm_num)
    rw [h2]
    norm_num
  have hhit : vadd (⟨0, 0, 0.001⟩ : Vec3) (vsmul ⟨0, 0, 1⟩ 3.999) = ⟨0, 0, 4⟩ := by
    norm_num [vadd, vsmul]
  have hNn : vnormalize (vsub (⟨0, 0, 4⟩ : Vec3) ⟨0, 0, 5⟩) = ⟨0, 0, -1⟩ := by
    rw [show vsub (⟨0, 0, 4⟩ : Vec3) ⟨0, 0, 5⟩ = ⟨0, 0, -1⟩ from by norm_num [vsub]]
    simp only [vnormalize, vnorm,
      show dot (⟨0, 0, -1⟩ : Vec3) ⟨0, 0, -1⟩ = 1 from by norm_num [dot]]
    norm_num [vsmul]
  have hscan : sphereScan ⟨0, 0, 0.001⟩ ⟨0, 0, 1⟩ [⟨⟨0, 0, 5⟩, 1, defaultMMaterial⟩]
      (flt_max, initHitState)
      = (3.999, ⟨⟨0, 0, 4⟩, ⟨0, 0, -1⟩, defaultMMaterial⟩) := by
    simp only [sphereScan, List.foldl_cons, List.foldl_nil, sphereStep, hray]
    rw [if_pos (show (3.999 : ℝ) < flt_max from by norm_num [flt_max])]
    rw [hhit, hNn]
  have hscene : scene_intersect ⟨0, 0, 0.001⟩ ⟨0, 0, 1⟩ [⟨⟨0, 0, 5⟩, 1, defaultMMaterial⟩]
      initHitState = (true, ⟨⟨0, 0, 4⟩, ⟨0, 0, -1⟩, defaultMMaterial⟩) := by
    simp only [scene_intersect, hscan]
    norm_num [flt_max, min_def]
  have hdist2 : vnorm (vsub (⟨0, 0, 4⟩ : Vec3) ⟨0, 0, 0.001⟩) = 3.999 := by
    rw [show vsub (⟨0, 0, 4⟩ : Vec3) ⟨0, 0, 0.001⟩ = ⟨0, 0, 3.999⟩ from by norm_num [vsub]]
    simp only [vnorm,
      show dot (⟨0, 0, 3.999⟩ : Vec3) ⟨0, 0, 3.999⟩ = 15.992001 from by norm_num [dot]]
    exact sqrt_eval (by norm_num) (by norm_num)
  exact (C4_shadow_occlusion [⟨⟨0, 0, 5⟩, 1, defaultMMaterial⟩] ⟨0, 0, 0⟩ ⟨0, 0, 1⟩ ⟨0, 0, 1⟩
      defaultMMaterial (0, 0) ⟨⟨0, 0, 10⟩, 1.5⟩ ⟨0, 0, 1⟩ ⟨0, 0, 0.001⟩ 10
      (true, ⟨⟨0, 0, 4⟩, ⟨0, 0, -1⟩, defaultMMaterial⟩)
      (by rw [show (Light.mk ⟨0, 0, 10⟩ 1.5).position = ⟨0, 0, 10⟩ from rfl]
          exact hldv.symm)
      (by rw [show (Light.mk ⟨0, 0, 10⟩ 1.5).position = ⟨0, 0, 10⟩ from rfl]
          exact hnl.symm)
      hsov.symm hscene.symm).1
    ⟨rfl, by
      show vnorm (vsub (⟨0, 0, 4⟩ : Vec3) ⟨0, 0, 0.001⟩) < 10
      rw [hdist2]
      norm_num⟩

theorem sphereScan_inv (orig dir : Vec3) (l : List Sphere) : ∀ (b : ℝ) (st : HitState),
    (sphereScan orig dir l (b, st) = (b, st)
      ∧ ∀ s ∈ l, ∀ t, s.ray_intersect orig dir = some t → b ≤ t)
    ∨ (∃ d s, s ∈ l ∧ d < b ∧ s.ray_intersect orig dir = some d
        ∧ sphereScan orig dir l (b, st)
            = (d, ⟨vadd orig (vsmul dir d),
                   vnormalize (vsub (vadd orig (vsmul dir d)) s.center), s.material⟩)
        ∧ ∀ s2 ∈ l, ∀ t, s2.ray_intersect orig dir = some t → d ≤ t) := by
  induction l with
  | nil =>
    intro b st
    left
    exact ⟨rfl, by intro s hs; simp at hs⟩
  | cons s0 rest ih =>
    intro b st
    have hcons : ∀ acc : ℝ × HitState, sphereScan orig dir (s0 :: rest) acc
        = sphereScan orig dir rest (sphereStep orig dir acc s0) := by
      intro acc
      simp [sphereScan, List.foldl_cons]
    rcases hr : s0.ray_intersect orig dir with _ | t
    · have hstep : sphereStep orig dir (b, st) s0 = (b, st) := by
        simp [sphereStep, hr]
      rcases ih b st with ⟨heq, hbound⟩ | ⟨d, s, hmem, hdb, hray, heq, hbound⟩
      · left
        refine ⟨by rw [hcons, hstep, heq], ?_⟩
        intro s2 hs2 t2 ht2
        rcases List.mem_cons.mp hs2 with h | h
        · rw [h, hr] at ht2; cases ht2
        · exact hbound s2 h t2 ht2
      · right
        refine ⟨d, s, List.mem_cons_of_mem _ hmem, hdb, hray,
          by rw [hcons, hstep, heq], ?_⟩
        intro s2 hs2 t2 ht2
        rcases List.mem_cons.mp hs2 with h | h
        · rw [h, hr] at ht2; cases ht2
        · exact hbound s2 h t2 ht2
    · by_cases htb : t < b
      · have hstep : sphereStep orig dir (b, st) s0
            = (t, ⟨vadd orig (vsmul dir t),
                vnormalize (vsub (vadd orig (vsmul dir t)) s0.center), s0.material⟩) := by
          simp [sphereStep, hr, htb]
        rcases ih t ⟨vadd orig (vsmul dir t),
            vnormalize (vsub (vadd orig (vsmul dir t)) s0.center), s0.material⟩ with
          ⟨heq, hbound⟩ | ⟨d, s, hmem, hdt, hray, heq, hbound⟩
        · right
          refine ⟨t, s0, List.mem_cons_self _ _, htb, hr,
            by rw [hcons, hstep, heq], ?_⟩
          intro s2 hs2 t2 ht2
          rcases List.mem_cons.mp hs2 with h | h
          · rw [h, hr] at ht2
            injection ht2 with h2
            exact le_of_eq h2
          · exact hbound s2 h t2 ht2
        · right
          refine ⟨d, s, List.mem_cons_of_mem _ hmem, lt_trans hdt htb, hray,
            by rw [hcons, hstep, heq], ?_⟩
          intro s2 hs2 t2 ht2
          rcases List.mem_cons.mp hs2 with h | h
          · rw [h, hr] at ht2
            injection ht2 with h2
            rw [← h2]
            exact le_of_lt hdt
          · exact hbound s2 h t2 ht2
      · have hstep : sphereStep orig dir (b, st) s0 = (b, st) := by
          simp [sphereStep, hr, htb]
        rcases ih b st with ⟨heq, hbound⟩ | ⟨d, s, hmem, hdb, hray, heq, hbound⟩
        · left
          refine ⟨by rw [hcons, hstep, heq], ?_⟩
          intro s2 hs2 t2 ht2
          rcases List.mem_cons.mp hs2 with h | h
          · rw [h, hr] at ht2
            injection ht2 with h2
            rw [← h2]
            exact le_of_not_lt htb
          · exact hbound s2 h t2 ht2
        · right
          refine ⟨d, s, List.mem_cons_of_mem _ hmem, hdb, hray,
            by rw [hcons, hstep, heq], ?_⟩
          intro s2 hs2 t2 ht2
          rcases List.mem_cons.mp hs2 with h | h
          · rw [h, hr] at ht2
            injection ht2 with h2
            rw [← h2]
            exact le_of_lt (lt_of_lt_of_le hdb (le_of_not_lt htb))
          · exact hbound s2 h t2 ht2

/-- C10: when the checkerboard plane is hit strictly nearer than the best
sphere hit, scene_intersect returns a material whose diffuse color is the
procedural checkerboard color while its refractive index, albedo and specular
exponent are the fields left in place by the sphere scan: the fields of a
nearest intersected sphere when some sphere recorded a hit, and the
caller-supplied (default) fields exactly when no sphere recorded a
nearer-than-previous hit. -/
theorem C10_plane_keeps_sphere_material (orig dir : Vec3) (spheres : List Sphere)
    (st0 : HitState)
    (hy : |dir.y| > 0.001)
    (hd0 : -(orig.y + 4) / dir.y > 0)
    (hx : |(vadd orig (vsmul dir (-(orig.y + 4) / dir.y))).x| < 10)
    (hz1 : (vadd orig (vsmul dir (-(orig.y + 4) / dir.y))).z < -10)
    (hz2 : (vadd orig (vsmul dir (-(orig.y + 4) / dir.y))).z > -30)
    (hnear : -(orig.y + 4) / dir.y < (sphereScan orig dir spheres (flt_max, st0)).1) :
    ((scene_intersect orig dir spheres st0).2.material
        = { (sphereScan orig dir spheres (flt_max, st0)).2.material with
            diffuse_color := checkerboardColor
              (vadd orig (vsmul dir (-(orig.y + 4) / dir.y))).x
              (vadd orig (vsmul dir (-(orig.y + 4) / dir.y))).z })
    ∧ ((sphereScan orig dir spheres (flt_max, st0)).1 < flt_max →
        ∃ s ∈ spheres,
          s.ray_intersect orig dir = some (sphereScan orig dir spheres (flt_max, st0)).1
          ∧ (sphereScan orig dir spheres (flt_max, st0)).2.material = s.material
          ∧ ∀ s2 ∈ spheres, ∀ t, s2.ray_intersect orig dir = some t →
              (sphereScan orig dir spheres (flt_max, st0)).1 ≤ t)
    ∧ ((sphereScan orig dir spheres (flt_max, st0)).1 = flt_max →
        (sphereScan orig dir spheres (flt_max, st0)).2 = st0) := by
  refine ⟨?_, ?_, ?_⟩
  · simp only [scene_intersect]
    rw [if_pos hy, if_pos ⟨hd0, hx, hz1, hz2, hnear⟩]
  · intro h
    rcases sphereScan_inv orig dir spheres flt_max st0 with ⟨heq, -⟩ |
      ⟨d, s, hmem, hdb, hray, heq, hbound⟩
    · rw [heq] at h
      exact absurd h (lt_irrefl _)
    · refine ⟨s, hmem, ?_, ?_, ?_⟩
      · rw [heq]; exact hray
      · rw [heq]
      · intro s2 hs2 t ht2
        rw [heq]
        exact hbound s2 hs2 t ht2
  · intro h
    rcases sphereScan_inv orig dir spheres flt_max st0 with ⟨heq, -⟩ |
      ⟨d, s, hmem, hdb, hray, heq, hbound⟩
    · rw [heq]
    · rw [heq] at h
      simp only [] at h
      exact absurd (h ▸ hdb) (lt_irrefl _)

/-- Witness for C10: a ray from (0, 0, -20) straight down hits the plane at
(0, -4, -20) at distance 4 and an ivory sphere of radius 2 centered at
(0, -10, -20) at distance 8; the returned material carries the checkerboard
diffuse color (0.3, 0.21, 0.09) together with the refractive index, albedo and
specular exponent of the ivory sphere, not those of the default material. -/
theorem C10_witness :
    (scene_intersect ⟨0, 0, -20⟩ ⟨0, -1, 0⟩
        [⟨⟨0, -10, -20⟩, 2, ⟨1.0, ⟨0.6, 0.3, 0.1, 0.0⟩, ⟨0.4, 0.4, 0.3⟩, 50⟩⟩]
        initHitState).2.material
      = ⟨1.0, ⟨0.6, 0.3, 0.1, 0.0⟩, ⟨0.3, 0.21, 0.09⟩, 50⟩ := by
  have htca : sphereTca ⟨⟨0, -10, -20⟩, 2, ⟨1.0, ⟨0.6, 0.3, 0.1, 0.0⟩, ⟨0.4, 0.4, 0.3⟩, 50⟩⟩
      ⟨0, 0, -20⟩ ⟨0, -1, 0⟩ = 10 := by
    show dot (vsub ⟨0, -10, -20⟩ ⟨0, 0, -20⟩) ⟨0, -1, 0⟩ = 10
    norm_num [vsub, dot]
  have hd2 : sphereD2 ⟨⟨0, -10, -20⟩, 2, ⟨1.0, ⟨0.6, 0.3, 0.1, 0.0⟩, ⟨0.4, 0.4, 0.3⟩, 50⟩⟩
      ⟨0, 0, -20⟩ ⟨0, -1, 0⟩ = 0 := by
    show dot (vsub ⟨0, -10, -20⟩ ⟨0, 0, -20⟩) (vsub ⟨0, -10, -20⟩ ⟨0, 0, -20⟩)
        - sphereTca ⟨⟨0, -10, -20⟩, 2, ⟨1.0, ⟨0.6, 0.3, 0.1, 0.0⟩, ⟨0.4, 0.4, 0.3⟩, 50⟩⟩
            ⟨0, 0, -20⟩ ⟨0, -1, 0⟩
          * sphereTca ⟨⟨0, -10, -20⟩, 2, ⟨1.0, ⟨0.6, 0.3, 0.1, 0.0⟩, ⟨0.4, 0.4, 0.3⟩, 50⟩⟩
            ⟨0, 0, -20⟩ ⟨0, -1, 0⟩ = 0
    rw [htca]
    norm_num [vsub, dot]
  have hthc : sphereThc ⟨⟨0, -10, -20⟩, 2, ⟨1.0, ⟨0.6, 0.3, 0.1, 0.0⟩, ⟨0.4, 0.4, 0.3⟩, 50⟩⟩
      ⟨0, 0, -20⟩ ⟨0, -1, 0⟩ = 2 := by
    show Real.sqrt ((2 : ℝ) * 2
        - sphereD2 ⟨⟨0, -10, -20⟩, 2, ⟨1.0, ⟨0.6, 0.3, 0.1, 0.0⟩, ⟨0.4, 0.4, 0.3⟩, 50⟩⟩
            ⟨0, 0, -20⟩ ⟨0, -1, 0⟩) = 2
    rw [hd2, show (2 : ℝ) * 2 - 0 = 4 from by norm_num]
    exact sqrt_eval (by norm_num) (by norm_num)
  have hray : Sphere.ray_intersect
      ⟨⟨0, -10, -20⟩, 2, ⟨1.0, ⟨0.6, 0.3, 0.1, 0.0⟩, ⟨0.4, 0.4, 0.3⟩, 50⟩⟩
      ⟨0, 0, -20⟩ ⟨0, -1, 0⟩ = some 8 := by
    have h := (ray_intersect_eval
      ⟨⟨0, -10, -20⟩, 2, ⟨1.0, ⟨0.6, 0.3, 0.1, 0.0⟩, ⟨0.4, 0.4, 0.3⟩, 50⟩⟩
      ⟨0, 0, -20⟩ ⟨0, -1, 0⟩).2.1
    rw [show (Sphere.mk ⟨0, -10, -20⟩ 2
        ⟨1.0, ⟨0.6, 0.3, 0.1, 0.0⟩, ⟨0.4, 0.4, 0.3⟩, 50⟩).radius = 2 from rfl] at h
    rw [hd2, htca, hthc] at h
    have h2 := h (by norm_num) (by norm_num)
    rw [h2]
    norm_num
  have hhit : vadd (⟨0, 0, -20⟩ : Vec3) (vsmul ⟨0, -1, 0⟩ 8) = ⟨0, -8, -20⟩ := by
    norm_num [vadd, vsmul]
  have hNv : vnormalize (vsub (⟨0, -8, -20⟩ : Vec3) ⟨0, -10, -20⟩) = ⟨0, 1, 0⟩ := by
    rw [show vsub (⟨0, -8, -20⟩ : Vec3) ⟨0, -10, -20⟩ = ⟨0, 2, 0⟩ from by norm_num [vsub]]
    have h4 : vnorm (⟨0, 2, 0⟩ : Vec3) = 2 := by
      simp only [vnorm, show dot (⟨0, 2, 0⟩ : Vec3) ⟨0, 2, 0⟩ = 4 from by norm_num [dot]]
      exact sqrt_eval (by norm_num) (by norm_num)
    simp only [vnormalize, h4]
    norm_num [vsmul]
  have hscan : sphereScan ⟨0, 0, -20⟩ ⟨0, -1, 0⟩
      [⟨⟨0, -10, -20⟩, 2, ⟨1.0, ⟨0.6, 0.3, 0.1, 0.0⟩, ⟨0.4, 0.4, 0.3⟩, 50⟩⟩]
      (flt_max, initHitState)
      = (8, ⟨⟨0, -8, -20⟩, ⟨0, 1, 0⟩, ⟨1.0, ⟨0.6, 0.3, 0.1, 0.0⟩, ⟨0.4, 0.4, 0.3⟩, 50⟩⟩) := by
    simp only [sphereScan, List.foldl_cons, List.foldl_nil, sphereStep, hray]
    rw [if_pos (show (8 : ℝ) < flt_max from by norm_num [flt_max])]
    rw [hhit, hNv]
  have hcheck : checkerboardColor 0 (-20) = ⟨0.3, 0.21, 0.09⟩ := by
    have e1 : cppTrunc (0.5 * (0 : ℝ) + 1000) = 1000 :=
      cppTrunc_eq_of_nonneg (by norm_num) (by norm_num) (by norm_num)
    have e2 : cppTrunc (0.5 * (-20 : ℝ)) = -10 :=
      cppTrunc_eq_of_neg (by norm_num) (by norm_num) (by norm_num)
    simp only [checkerboardColor, e1, e2]
    rw [if_neg (by decide : ¬((1000 + -10 : ℤ) % 2 = 1))]
    norm_num [vsmul]
  have hpx : (vadd (⟨0, 0, -20⟩ : Vec3) (vsmul ⟨0, -1, 0⟩
      (-((⟨0, 0, -20⟩ : Vec3).y + 4) / (⟨0, -1, 0⟩ : Vec3).y))).x = 0 := by
    norm_num [vadd, vsmul]
  have hpz : (vadd (⟨0, 0, -20⟩ : Vec3) (vsmul ⟨0, -1, 0⟩
      (-((⟨0, 0, -20⟩ : Vec3).y + 4) / (⟨0, -1, 0⟩ : Vec3).y))).z = -20 := by
    norm_num [vadd, vsmul]
  have h := (C10_plane_keeps_sphere_material ⟨0, 0, -20⟩ ⟨0, -1, 0⟩
      [⟨⟨0, -10, -20⟩, 2, ⟨1.0, ⟨0.6, 0.3, 0.1, 0.0⟩, ⟨0.4, 0.4, 0.3⟩, 50⟩⟩]
      initHitState
      (by norm_num)
      (by norm_num)
      (by norm_num [vadd, vsmul])
      (by norm_num [vadd, vsmul])
      (by norm_num [vadd, vsmul])
      (by rw [hscan]; norm_num)).1
  rw [h, hscan, hpx, hpz, hcheck]

theorem compressStep_skip (fbWidth scale : ℕ) (fb : ℕ → Vec3) (oldStartIdx : ℕ)
    (acc : ℕ × Vec3 × List Rect) (col : ℕ)
    (h1 : ¬ col = fbWidth / scale - 1) (h2 : fb (oldStartIdx + col) = acc.2.1) :
    compressStep fbWidth scale fb oldStartIdx acc col = acc := by
  simp only [compressStep]
  rw [if_neg]
  rintro (hc | hc | hc | hc)
  · exact h1 hc
  · exact hc (congrArg Vec3.x h2)
  · exact hc (congrArg Vec3.y h2)
  · exact hc (congrArg Vec3.z h2)

theorem compress_foldl_skip (fbWidth scale : ℕ) (fb : ℕ → Vec3) (oldStartIdx : ℕ)
    (acc : ℕ × Vec3 × List Rect) (l : List ℕ) :
    (∀ col ∈ l, ¬ col = fbWidth / scale - 1 ∧ fb (oldStartIdx + col) = acc.2.1) →
    l.foldl (compressStep fbWidth scale fb oldStartIdx) acc = acc := by
  induction l with
  | nil => intro _; rfl
  | cons c rest ih =>
    intro h
    rw [List.foldl_cons,
      compressStep_skip fbWidth scale fb oldStartIdx acc c
        (h c (List.mem_cons_self _ _)).1 (h c (List.mem_cons_self _ _)).2]
    exact ih fun col hc => h col (List.mem_cons_of_mem _ hc)

/-- The written part of a downsampled framebuffer row at scale 16, all holding
the background color; the slot one past the row (index 64 onward) keeps the
default zero color that render never writes. -/
def c6RowWritten : ℕ → Vec3 := fun i => if i < width / 16 then backgroundColor else ⟨0, 0, 0⟩

/-- A framebuffer whose colors are all the default zero color. -/
def c6RowBlack : ℕ → Vec3 := fun _ => ⟨0, 0, 0⟩

theorem toneMap_background : toneMapColor backgroundColor = backgroundColor := by
  simp only [toneMapColor, backgroundColor]
  rw [max_eq_right (show (0.7 : ℝ) ≤ 0.8 from by norm_num),
    max_eq_right (show (0.2 : ℝ) ≤ 0.8 from by norm_num)]
  rw [if_neg (by norm_num)]

theorem toneMap_zero : toneMapColor ⟨0, 0, 0⟩ = ⟨0, 0, 0⟩ := by
  simp only [toneMapColor]
  rw [max_eq_right (show (0 : ℝ) ≤ 0 from le_refl 0),
    max_eq_right (show (0 : ℝ) ≤ 0 from le_refl 0)]
  rw [if_neg (by norm_num)]

/-- C6: the contiguous-rectangle pass is off by one at the end of a row.  With
the repository constants (width 1024, scale 16, so 64 pixel blocks per row), a
row whose 64 written slots all hold the background color is one maximal run,
yet the pass emits two overlapping rectangles: at the end-of-row test
(column 63) it emits a rectangle of width 1008 covering only 63 blocks, and at
column 64 it reads the framebuffer one slot past the row (the never-written
default zero color), sees a spurious color change, and emits a second,
overlapping rectangle of width 1024.  If instead the out-of-row slot happens
to equal the run color (an all-zero row), only the width-1008 rectangle is
emitted and the last pixel block of the row is never covered. -/
theorem C6_compressor_end_of_row :
    compressRow width 16 c6RowWritten 0
      = [⟨0, 0, 1008, 16, backgroundColor⟩, ⟨0, 0, 1024, 16, backgroundColor⟩]
    ∧ compressRow width 16 c6RowBlack 0 = [⟨0, 0, 1008, 16, ⟨0, 0, 0⟩⟩] := by
  have hw64 : width / 16 = 64 := by norm_num [width]
  have hsplit : List.range (64 + 1) = List.range 63 ++ [63, 64] := by decide
  have hfb : ∀ col : ℕ, col < 64 → c6RowWritten (0 + col) = backgroundColor := by
    intro col h
    simp only [c6RowWritten, hw64]
    rw [if_pos (by omega)]
  have hfb64 : c6RowWritten (0 + 64) = ⟨0, 0, 0⟩ := by
    simp only [c6RowWritten, hw64]
    rw [if_neg (by omega)]
  constructor
  · have hfb0 : c6RowWritten 0 = backgroundColor := by
      have := hfb 0 (by omega)
      rwa [Nat.add_zero] at this
    simp only [compressRow, Nat.zero_mul, hw64, hfb0, hsplit, List.foldl_append]
    rw [compress_foldl_skip width 16 c6RowWritten 0 (0, backgroundColor, [])
        (List.range 63)
        (by
          intro col hc
          rw [List.mem_range] at hc
          exact ⟨by rw [hw64]; omega, hfb col (by omega)⟩)]
    rw [List.foldl_cons, List.foldl_cons, List.foldl_nil]
    have hstep1 : compressStep width 16 c6RowWritten 0 (0, backgroundColor, []) 63
        = (0, backgroundColor, [⟨0, 0, 1008, 16, backgroundColor⟩]) := by
      simp only [compressStep]
      rw [if_pos (Or.inl (show (63 : ℕ) = width / 16 - 1 from by rw [hw64]))]
      rw [if_neg (show ¬((c6RowWritten (0 + 63)).x ≠ (backgroundColor : Vec3).x
          ∨ (c6RowWritten (0 + 63)).y ≠ (backgroundColor : Vec3).y
          ∨ (c6RowWritten (0 + 63)).z ≠ (backgroundColor : Vec3).z) from by
        rw [hfb 63 (by omega)]
        simp)]
      rw [toneMap_background, hw64]
      norm_num [width]
    rw [hstep1]
    have hstep2 : compressStep width 16 c6RowWritten 0
        (0, backgroundColor, [⟨0, 0, 1008, 16, backgroundColor⟩]) 64
        = (0 + 64, ⟨0, 0, 0⟩,
            [⟨0, 0, 1008, 16, backgroundColor⟩, ⟨0, 0, 1024, 16, backgroundColor⟩]) := by
      have hcc : (c6RowWritten (0 + 64)).x ≠ (backgroundColor : Vec3).x := by
        rw [hfb64]
        norm_num [backgroundColor]
      simp only [compressStep]
      rw [if_pos (Or.inr (Or.inl hcc))]
      rw [if_pos (Or.inl hcc)]
      rw [toneMap_background, hw64, hfb64]
      norm_num [width]
    rw [hstep2]
  · have hfb0b : c6RowBlack 0 = (⟨0, 0, 0⟩ : Vec3) := rfl
    simp only [compressRow, Nat.zero_mul, hw64, hfb0b, hsplit, List.foldl_append]
    rw [compress_foldl_skip width 16 c6RowBlack 0 (0, ⟨0, 0, 0⟩, []) (List.range 63)
        (by
          intro col hc
          rw [List.mem_range] at hc
          exact ⟨by rw [hw64]; omega, rfl⟩)]
    rw [List.foldl_cons, List.foldl_cons, List.foldl_nil]
    have hstep1 : compressStep width 16 c6RowBlack 0 (0, ⟨0, 0, 0⟩, []) 63
        = (0, ⟨0, 0, 0⟩, [⟨0, 0, 1008, 16, ⟨0, 0, 0⟩⟩]) := by
      simp only [compressStep]
      rw [if_pos (Or.inl (show (63 : ℕ) = width / 16 - 1 from by rw [hw64]))]
      rw [if_neg (show ¬((c6RowBlack (0 + 63)).x ≠ (Vec3.mk 0 0 0).x
          ∨ (c6RowBlack (0 + 63)).y ≠ (Vec3.mk 0 0 0).y
          ∨ (c6RowBlack (0 + 63)).z ≠ (Vec3.mk 0 0 0).z) from by simp [c6RowBlack])]
      rw [toneMap_zero, hw64]
      norm_num [width]
    rw [hstep1]
    exact congrArg (fun p => p.2.2)
      (compressStep_skip width 16 c6RowBlack 0 (0, ⟨0, 0, 0⟩, [⟨0, 0, 1008, 16, ⟨0, 0, 0⟩⟩])
        64 (by rw [hw64]; omega) rfl)
